import Mathlib

/-!
Verification development for the domain-validator repository
(src/domain_validator/domain_validator.py).

The Python class DomainValidator is shallowly embedded here:

* Python values reaching the validator entry points are modelled by PyVal
  (a string, an int, or None), capturing Python truthiness and the
  isinstance str guards.
* Raised exceptions are modelled by Except PyErr, with PyErr recording the
  exception class (ValueError / NotImplementedError / an uncaught
  dns.resolver exception).
* The compiled regular expression is embedded by an executable matcher
  (re_match) that mirrors the pattern
      ^((?!-)[\wऀ-ॿ-]{1,63}(?<!-)\.(?!-)[\wऀ-ॿ-]{1,63}(?<!-))*$
  literally: zero or more repetitions of RUN "." RUN, where a RUN is 1-63
  characters of the class, with the lookarounds forbidding a hyphen as the
  first or last character of each RUN, and the Python $ also matching just
  before one trailing newline.  Backtracking is modelled by exhaustive
  search over the two run lengths of each repetition.
* The DNS resolver (dns.resolver.resolve) is an injected capability
  String -> String -> DnsResponse; functions that call it also return the
  list of queries they issued, so that gating invariants can be stated.
* The secrets.choice randomness of generate_txt_code is an injected
  capability Nat -> Fin 62 selecting an index into the alphanumeric
  alphabet.
* Python's idna codec (encodings/idna.py, used via str.encode("idna") /
  bytes.decode("idna")) and its punycode codec (encodings/punycode.py) are
  embedded as executable functions, restricted to the character repertoire
  relevant here (see the doc comments on nameprepModel and
  unicodeWordChar).
-/

namespace DomainValidator

/-- A Python value as passed to the validator entry points: a string, an
int, or None.  Captures truthiness and the isinstance str check of the
Python code. -/
inductive PyVal where
  | str (s : String)
  | int (n : Int)
  | pyNone
  deriving DecidableEq, Repr

/-- Python truthiness (`if not domain`): empty string, 0 and None are
falsy. -/
def PyVal.truthy : PyVal → Bool
  | .str s => !s.isEmpty
  | .int n => n != 0
  | .pyNone => false

/-- The exceptions the embedded code can raise: ValueError,
NotImplementedError, or an exception from dns.resolver that no handler
catches. -/
inductive PyErr where
  | valueError (msg : String)
  | notImplementedError (msg : String)
  | dnsException (msg : String)
  deriving DecidableEq, Repr

/-! ## The regular expression -/

/-- `\w` under re.ASCII: [a-zA-Z0-9_]. -/
def asciiWordChar (c : Char) : Bool :=
  (0x61 ≤ c.toNat && c.toNat ≤ 0x7A) || (0x41 ≤ c.toNat && c.toNat ≤ 0x5A) ||
  (0x30 ≤ c.toNat && c.toNat ≤ 0x39) || c == '_'

/-- `\w` under re.UNICODE (alphanumeric per the Unicode database, plus
underscore), restricted to the character repertoire that appears in this
development: ASCII, the Latin-1/Latin-Extended letters U+00C0-U+024F
(excluding the two signs U+00D7, U+00F7), the Cyrillic letters
U+0400-U+0481 and U+048A-U+04FF, and the CJK Unified Ideographs
U+4E00-U+9FFF.  On these ranges it agrees with Python's `\w`. -/
def unicodeWordChar (c : Char) : Bool :=
  asciiWordChar c ||
  (0xC0 ≤ c.toNat && c.toNat ≤ 0x24F && c.toNat ≠ 0xD7 && c.toNat ≠ 0xF7) ||
  (0x400 ≤ c.toNat && c.toNat ≤ 0x481) || (0x48A ≤ c.toNat && c.toNat ≤ 0x4FF) ||
  (0x4E00 ≤ c.toNat && c.toNat ≤ 0x9FFF)

/-- The character class `[\wऀ-ॿ-]` of the pattern: a word
character (of the active mode), the literal range U+0900-U+097F (which the
re.ASCII flag does not affect), or a hyphen.  re.IGNORECASE has no effect:
the class is closed under case. -/
def labelChar (wc : Char → Bool) (c : Char) : Bool :=
  wc c || (0x900 ≤ c.toNat && c.toNat ≤ 0x97F) || c == '-'

/-- One `(?!-)[class]{1,63}(?<!-)` run of the pattern: 1-63 class
characters, not starting and not ending with a hyphen. -/
def goodRun (cls : Char → Bool) (r : List Char) : Bool :=
  decide (1 ≤ r.length) && decide (r.length ≤ 63) && r.all cls &&
  !(r.head? == some '-') && !(r.getLast? == some '-')

/-- Try to read one repetition of the group, as RUN(n1) "." RUN(n2), off
the front of l; return the remainder on success. -/
def tryBlock (cls : Char → Bool) (n1 n2 : Nat) (l : List Char) : Option (List Char) :=
  if (l.take n1).length = n1 && goodRun cls (l.take n1) then
    match l.drop n1 with
    | c :: rest2 =>
      if c == '.' && (rest2.take n2).length = n2 && goodRun cls (rest2.take n2) then
        some (rest2.drop n2)
      else none
    | [] => none
  else none

/-- Fuel-indexed matcher for `(RUN . RUN)*` anchored at both ends; the
fuel bounds the number of repetitions (each consumes at least three
characters, so fuel = length suffices).  The searches over n1-1 and n2-1
realise the regex engine's backtracking over the two {1,63} runs. -/
def matchBlocksFuel (cls : Char → Bool) : Nat → List Char → Bool
  | _, [] => true
  | 0, _ :: _ => false
  | fuel + 1, x :: xs =>
    (List.range 63).any fun i =>
      (List.range 63).any fun j =>
        match tryBlock cls (i + 1) (j + 1) (x :: xs) with
        | some rest => matchBlocksFuel cls fuel rest
        | none => false

/-- `(RUN . RUN)*` against the whole character list. -/
def matchBlocks (cls : Char → Bool) (l : List Char) : Bool :=
  matchBlocksFuel cls l.length l

/-- bool(re_pattern.match(s)) for the compiled pattern: the anchored group
matches the whole string, or — because Python's $ also matches just before
a trailing newline — the whole string minus one final newline. -/
def re_match (cls : Char → Bool) (s : String) : Bool :=
  matchBlocks cls s.data ||
    (match s.data.getLast? with
     | some c => c == '\n' && matchBlocks cls s.data.dropLast
     | none => false)

/-! ## Configuration and the pure validators -/

/-- The constructor arguments of DomainValidator, immutable after
construction. -/
structure Config where
  ascii_only : Bool := true
  domain_max_length : Nat := 255
  deriving DecidableEq, Repr

/-- The `\w` semantics selected by the ascii_only flag (re.ASCII versus
re.UNICODE compilation of the same pattern). -/
def Config.wordChar (cfg : Config) : Char → Bool :=
  if cfg.ascii_only then asciiWordChar else unicodeWordChar

/-- The full character class of the compiled pattern for this
configuration. -/
def Config.cls (cfg : Config) : Char → Bool :=
  labelChar cfg.wordChar

/-- DomainValidator.validate_domain_re: empty guard, isinstance str guard,
then the regex. -/
def validate_domain_re (cfg : Config) (domain : PyVal) : Except PyErr Unit :=
  if !domain.truthy then .error (.valueError "Domain cannot be empty.")
  else
    match domain with
    | .str s =>
      if re_match cfg.cls s then .ok ()
      else .error (.valueError ("Invalid domain name: " ++ s ++ "."))
    | _ => .error (.valueError "Domain must be a string.")

/-- DomainValidator.validate_domain_length: empty guard, isinstance str
guard, then len(domain) > domain_max_length. -/
def validate_domain_length (cfg : Config) (domain : PyVal) : Except PyErr Unit :=
  if !domain.truthy then .error (.valueError "Domain cannot be empty.")
  else
    match domain with
    | .str s =>
      if s.length > cfg.domain_max_length then
        .error (.valueError
          ("Domain name exceeds maximum length of " ++ toString cfg.domain_max_length ++ "."))
      else .ok ()
    | _ => .error (.valueError "Domain must be a string.")

/-! ## The DNS capability and the DNS-backed operations -/

/-- Outcome of one dns.resolver.resolve call: a returned record set
(record strings in to_text presentation form), the NXDOMAIN or NoAnswer
exceptions, or any other resolver exception. -/
inductive DnsResponse where
  | answer (records : List String)
  | nxdomain
  | noAnswer
  | otherFailure (msg : String)
  deriving DecidableEq, Repr

/-- One query issued to the resolver: name and record type. -/
structure DnsQuery where
  name : String
  rrtype : String
  deriving DecidableEq, Repr

/-- The injected resolver capability: name and record type to outcome. -/
abbrev Dns := String → String → DnsResponse

/-- DomainValidator.validate_domain_dns: resolver.resolve(domain, "NS")
inside `except Exception`, so every failing outcome (NXDOMAIN, NoAnswer,
or any other resolver exception) is re-raised as this ValueError. -/
def validate_domain_dns (dns : Dns) (domain : String) : Except PyErr Unit :=
  match dns domain "NS" with
  | .answer _ => .ok ()
  | _ => .error (.valueError ("Domain name did not resolve with DNS: " ++ domain ++ "."))

/-- The string inside a PyVal; only used after validate_domain_re has
succeeded, which forces the str case. -/
def pyvalStr : PyVal → String
  | .str s => s
  | _ => ""

/-- DomainValidator.is_domain_valid: format, then length, then DNS, under
`except ValueError: return False`.  Besides the boolean result it returns
the list of queries the run issued to the resolver capability. -/
def is_domain_valid (cfg : Config) (dns : Dns) (domain : PyVal) : Bool × List DnsQuery :=
  match validate_domain_re cfg domain with
  | .error _ => (false, [])
  | .ok _ =>
    match validate_domain_length cfg domain with
    | .error _ => (false, [])
    | .ok _ =>
      let s := pyvalStr domain
      match validate_domain_dns dns s with
      | .ok _ => (true, [⟨s, "NS"⟩])
      | .error _ => (false, [⟨s, "NS"⟩])

/-- Python str.strip (with one argument) removes all leading and trailing
occurrences of the given character. -/
def stripChar (ch : Char) (l : List Char) : List Char :=
  ((l.dropWhile (· == ch)).reverse.dropWhile (· == ch)).reverse

/-- rdata.to_text().strip(a double quote) applied to a record string. -/
def stripQuotes (s : String) : String :=
  ⟨stripChar '"' s.data⟩

/-! ## The punycode codec (encodings/punycode.py, RFC 3492) -/

/-- Insert n into a sorted duplicate-free list, keeping it sorted and
duplicate-free. -/
def insertSorted (n : Nat) : List Nat → List Nat
  | [] => [n]
  | m :: rest =>
    if n < m then n :: m :: rest
    else if n = m then m :: rest
    else m :: insertSorted n rest

/-- sorted(set(l)). -/
def sortedUniq (l : List Nat) : List Nat :=
  l.foldl (fun acc n => insertSorted n acc) []

/-- 3.1 Basic code point segregation: the ASCII characters in order, and
the sorted set of extended characters. -/
def segregate (s : List Char) : List Char × List Char :=
  (s.filter (fun c => c.toNat < 128),
   (sortedUniq ((s.filter (fun c => 128 ≤ c.toNat)).map Char.toNat)).map Char.ofNat)

/-- Length of s counting only characters with ordinal below mx. -/
def selective_len (s : List Char) (mx : Nat) : Nat :=
  (s.filter (fun c => c.toNat < mx)).length

/-- The scanning loop of selective_find, over the characters after
position pos; index counts characters ≤ ch, pos is the absolute
position. -/
def selective_find_aux (ch : Char) : List Char → Int → Int → Int × Int
  | [], _, _ => (-1, -1)
  | c :: rest, index, pos =>
    if c = ch then (index + 1, pos + 1)
    else if c < ch then selective_find_aux ch rest (index + 1) (pos + 1)
    else selective_find_aux ch rest index (pos + 1)

/-- Next occurrence of ch in s after position pos, as (index, pos). -/
def selective_find (s : List Char) (ch : Char) (index pos : Int) : Int × Int :=
  selective_find_aux ch (s.drop (pos + 1).toNat) index pos

/-- The inner while loop of insertion_unsort: emit one delta per
occurrence of c, resetting delta to 0 after each; returns the final
oldindex and the extended delta list.  Fuel bounds the number of
occurrences. -/
def unsort_inner (s : List Char) (c : Char) :
    Nat → Int → Int → Int → Int → List Int → Int × List Int
  | 0, _, _, oldindex, _, acc => (oldindex, acc)
  | fuel + 1, index, pos, oldindex, delta, acc =>
    let r := selective_find s c index pos
    if r.1 = -1 then (oldindex, acc)
    else unsort_inner s c fuel r.1 r.2 r.1 0 (acc ++ [delta + r.1 - oldindex - 1])

/-- 3.2 Insertion unsort coding: the delta sequence for the extended
characters. -/
def insertion_unsort (s : List Char) (extended : List Char) : List Int :=
  (extended.foldl
    (fun (st : Int × Int × List Int) c =>
      let curlen : Int := selective_len s c.toNat
      let delta := (curlen + 1) * ((c.toNat : Int) - st.1)
      let r := unsort_inner s c (s.length + 1) (-1) (-1) st.2.1 delta st.2.2
      ((c.toNat : Int), r.1, r.2))
    ((0x80 : Int), (-1 : Int), ([] : List Int))).2.2

/-- The threshold function T(j, bias) with tmin = 1, tmax = 26,
base = 36. -/
def punyT (j bias : Nat) : Nat :=
  let res : Int := 36 * ((j : Int) + 1) - bias
  if res < 1 then 1 else if res > 26 then 26 else res.toNat

/-- The digit alphabet a-z0-9 of the punycode codec. -/
def punyDigit (n : Nat) : Char :=
  if n < 26 then Char.ofNat (0x61 + n) else Char.ofNat (0x30 + n - 26)

/-- 3.3 Generalized variable-length integers, encoding side; the fuel
dominates N, which strictly decreases. -/
def gen_gint_aux : Nat → Nat → Nat → Nat → List Char
  | 0, _, _, _ => []
  | fuel + 1, N, bias, j =>
    let t := punyT j bias
    if N < t then [punyDigit N]
    else punyDigit (t + (N - t) % (36 - t)) :: gen_gint_aux fuel ((N - t) / (36 - t)) bias (j + 1)

/-- Encode one generalized integer. -/
def generate_generalized_integer (N bias : Nat) : List Char :=
  gen_gint_aux (N + 1) N bias 0

/-- The while loop of adapt: divide by 35 while above 455, counting 36
per division. -/
def adapt_aux : Nat → Nat → Nat → Nat × Nat
  | 0, delta, divs => (delta, divs)
  | fuel + 1, delta, divs =>
    if delta > 455 then adapt_aux fuel (delta / 35) (divs + 36) else (delta, divs)

/-- Bias adaptation with damp = 700, skew = 38. -/
def adapt (delta : Nat) (first : Bool) (numchars : Nat) : Nat :=
  let d := if first then delta / 700 else delta / 2
  let d := d + d / numchars
  let r := adapt_aux (d + 1) d 0
  r.2 + (36 * r.1) / (r.1 + 38)

/-- 3.4: encode all deltas, adapting the bias after each. -/
def generate_integers (baselen : Nat) (deltas : List Nat) : List Char :=
  (deltas.foldl
    (fun (st : List Char × Nat × Nat) delta =>
      (st.1 ++ generate_generalized_integer delta st.2.1,
       adapt delta (st.2.2 == 0) (baselen + st.2.2 + 1),
       st.2.2 + 1))
    (([] : List Char), 72, 0)).1

/-- str.encode("punycode"). -/
def punycode_encode (s : List Char) : List Char :=
  let base := (segregate s).1
  let extended := (segregate s).2
  let deltas := insertion_unsort s extended
  let ext := generate_integers base.length (deltas.map Int.toNat)
  if !base.isEmpty then base ++ '-' :: ext else ext

/-- Uppercase one ASCII character. -/
def asciiUpperChar (c : Char) : Char :=
  if 0x61 ≤ c.toNat ∧ c.toNat ≤ 0x7A then Char.ofNat (c.toNat - 32) else c

/-- Lowercase one ASCII character. -/
def asciiLowerChar (c : Char) : Char :=
  if 0x41 ≤ c.toNat ∧ c.toNat ≤ 0x5A then Char.ofNat (c.toNat + 32) else c

/-- 3.3 Generalized variable-length integers, decoding side: consume
digits from the remaining (already uppercased) extended string, returning
the absolute position after the last digit and the decoded value. -/
def dgn_aux : List Char → Nat → Nat → Nat → Nat → Nat → Except String (Nat × Nat)
  | [], _, _, _, _, _ => .error "incomplete punicode string"
  | c :: rest, extpos, bias, result, w, j =>
    let char := c.toNat
    if 0x41 ≤ char ∧ char ≤ 0x5A then
      let digit := char - 0x41
      let t := punyT j bias
      if digit < t then .ok (extpos + 1, result + digit * w)
      else dgn_aux rest (extpos + 1) bias (result + digit * w) (w * (36 - t)) (j + 1)
    else if 0x30 ≤ char ∧ char ≤ 0x39 then
      let digit := char - 22
      let t := punyT j bias
      if digit < t then .ok (extpos + 1, result + digit * w)
      else dgn_aux rest (extpos + 1) bias (result + digit * w) (w * (36 - t)) (j + 1)
    else .error "Invalid extended code point"

/-- decode_generalized_number under strict error handling. -/
def decode_generalized_number (extended : List Char) (extpos bias : Nat) :
    Except String (Nat × Nat) :=
  dgn_aux (extended.drop extpos) extpos bias 0 1 0

/-- 3.2 Insertion sort coding, decoding side: repeatedly decode a delta
and insert the next character.  chr of an out-of-range or surrogate
ordinal is approximated by Char.ofNat; no input in this development
reaches that case. -/
def ins_sort_aux (extended : List Char) :
    Nat → List Char → Int → Nat → Nat → Nat → Except String (List Char)
  | 0, base, _, _, _, _ => .ok base
  | fuel + 1, base, pos, char, bias, extpos =>
    if extpos < extended.length then
      match decode_generalized_number extended extpos bias with
      | .error e => .error e
      | .ok (newpos, delta) =>
        let pos1 := pos + delta + 1
        let char1 := char + (pos1 / ((base.length : Int) + 1)).toNat
        if char1 > 0x10FFFF then .error "Invalid character"
        else
          let pos2 := (pos1 % ((base.length : Int) + 1)).toNat
          let base1 := base.take pos2 ++ Char.ofNat char1 :: base.drop pos2
          let bias1 := adapt delta (extpos == 0) base1.length
          ins_sort_aux extended fuel base1 pos2 char1 bias1 newpos
    else .ok base

/-- Position of the last hyphen in l, if any. -/
def rfindDash (l : List Char) : Option Nat :=
  (List.range l.length).foldl
    (fun acc i => if l.get? i = some '-' then some i else acc) none

/-- bytes.decode("punycode") under strict error handling: split at the
last hyphen, uppercase the extended part, and run insertion sort. -/
def punycode_decode (text : List Char) : Except String (List Char) :=
  match rfindDash text with
  | none =>
    let ext := text.map asciiUpperChar
    ins_sort_aux ext (ext.length + 1) [] (-1) 0x80 72 0
  | some p =>
    let base := text.take p
    let ext := (text.drop (p + 1)).map asciiUpperChar
    ins_sort_aux ext (ext.length + 1) base (-1) 0x80 72 0

/-! ## The idna codec (encodings/idna.py, RFC 3490/3491) -/

/-- Is every character ASCII (so that str.encode("ascii") succeeds)? -/
def isAsciiL (l : List Char) : Bool :=
  l.all (fun c => c.toNat < 128)

/-- Model of nameprep restricted to the character repertoire of this
development: the RFC 3454 B.2 mapping is ASCII case folding here (the
CJK, Devanagari and lowercase Latin characters used map to themselves),
the B.1 deletions, NFKC normalisation, prohibition and bidi checks are
identities / vacuous on this repertoire. -/
def nameprepModel (l : List Char) : List Char :=
  l.map asciiLowerChar

/-- Does the label start with the ACE prefix xn-- (case-sensitively, as
bytes.startswith does)? -/
def startsWithXn (l : List Char) : Bool :=
  l.take 4 == ['x', 'n', '-', '-']

/-- encodings.idna.ToASCII: ASCII pass-through under a 1-63 length check,
otherwise nameprep, then either ASCII after mapping, or the ACE prefix
plus the punycode encoding, under the same length check. -/
def ToASCII (label : List Char) : Except String (List Char) :=
  if isAsciiL label then
    if 0 < label.length ∧ label.length < 64 then .ok label
    else .error "label empty or too long"
  else
    let label1 := nameprepModel label
    if isAsciiL label1 then
      if 0 < label1.length ∧ label1.length < 64 then .ok label1
      else .error "label empty or too long"
    else if startsWithXn label1 then .error "Label starts with ACE prefix"
    else
      let p := 'x' :: 'n' :: '-' :: '-' :: punycode_encode label1
      if 0 < p.length ∧ p.length < 64 then .ok p
      else .error "label empty or too long"

/-- encodings.idna.ToUnicode: on the (always ASCII here) label, return it
unchanged unless it carries the ACE prefix; otherwise punycode-decode the
rest and verify that ToASCII maps the result back to the original. -/
def ToUnicode (label : List Char) : Except String (List Char) :=
  match
    (if isAsciiL label then .ok label
     else
       let l1 := nameprepModel label
       if isAsciiL l1 then .ok l1
       else .error "Invalid character in IDN label" : Except String (List Char)) with
  | .error e => .error e
  | .ok lab =>
    if !startsWithXn lab then .ok lab
    else
      match punycode_decode (lab.drop 4) with
      | .error e => .error e
      | .ok result =>
        match ToASCII result with
        | .error e => .error e
        | .ok label2 =>
          if lab.map asciiLowerChar = label2 then .ok result
          else .error "IDNA does not round-trip"

/-- Sequence ToASCII or ToUnicode over the labels of a name. -/
def mapExcept (f : List Char → Except String (List Char)) :
    List (List Char) → Except String (List (List Char))
  | [] => .ok []
  | l :: rest =>
    match f l with
    | .error e => .error e
    | .ok r =>
      match mapExcept f rest with
      | .error e => .error e
      | .ok rs => .ok (r :: rs)

/-- Split a name on the label separators.  Python splits non-ASCII input
on the dots regex [U+002E U+3002 U+FF0E U+FF61]; only U+002E occurs in
this development. -/
def splitOnDot : List Char → List (List Char)
  | [] => [[]]
  | c :: rest =>
    if c = '.' then [] :: splitOnDot rest
    else
      match splitOnDot rest with
      | [] => [[c]]
      | l :: ls => (c :: l) :: ls

/-- Join labels with dots (inverse of splitOnDot). -/
def joinDots : List (List Char) → List Char
  | [] => []
  | [a] => a
  | a :: b :: rest => a ++ '.' :: joinDots (b :: rest)

/-- Does the ACE prefix occur anywhere in the name (the `ace_prefix not
in input` fast-path test of the idna decoder)? -/
def containsXn (l : List Char) : Bool :=
  (List.range l.length).any fun i => startsWithXn (l.drop i)

/-- str.encode("idna") (the strict idna Codec.encode): empty pass-through;
for ASCII input only per-label length checks; otherwise ToASCII on each
label, with one trailing dot preserved. -/
def pyEncodeIdna (s : List Char) : Except String (List Char) :=
  if s.isEmpty then .ok []
  else if isAsciiL s then
    let labels := splitOnDot s
    if !(labels.dropLast.all fun l => 0 < l.length ∧ l.length < 64) then
      .error "label empty or too long"
    else if 64 ≤ (labels.getLastD []).length then .error "label too long"
    else .ok s
  else
    let labels := splitOnDot s
    let trailing := labels.getLastD [] == ([] : List Char)
    let labels1 := if trailing then labels.dropLast else labels
    match mapExcept ToASCII labels1 with
    | .error e => .error e
    | .ok ls => .ok (joinDots ls ++ if trailing then ['.'] else [])

/-- bytes.decode("idna") (the strict idna Codec.decode): empty
pass-through; ASCII names without the ACE prefix pass through; otherwise
ToUnicode on each label, with one trailing dot preserved. -/
def pyDecodeIdna (s : List Char) : Except String (List Char) :=
  if s.isEmpty then .ok []
  else if !containsXn s ∧ isAsciiL s then .ok s
  else
    let labels := splitOnDot s
    let trailing := labels.getLastD [] == ([] : List Char)
    let labels1 := if trailing then labels.dropLast else labels
    match mapExcept ToUnicode labels1 with
    | .error e => .error e
    | .ok ls => .ok (joinDots ls ++ if trailing then ['.'] else [])

/-! ## The conversion operations -/

/-- DomainValidator.unicode_to_punycode: NotImplementedError in ASCII-only
mode, then validate_domain_re (re-raised unchanged), then
domain.encode("idna").decode("ascii") with every encoding exception
re-raised as this ValueError. -/
def unicode_to_punycode (cfg : Config) (domain : PyVal) : Except PyErr String :=
  if cfg.ascii_only then
    .error (.notImplementedError "Punycode conversion is not supported for ASCII-only mode.")
  else
    match validate_domain_re cfg domain with
    | .error e => .error e
    | .ok _ =>
      match pyEncodeIdna (pyvalStr domain).data with
      | .ok out => .ok (String.mk out)
      | .error m => .error (.valueError ("Error converting to Punycode: " ++ m))

/-- DomainValidator.punycode_to_unicode: NotImplementedError in ASCII-only
mode, then validate_domain_re (re-raised unchanged), then
domain.encode("ascii").decode("idna") with every encoding exception
re-raised as this ValueError. -/
def punycode_to_unicode (cfg : Config) (domain : PyVal) : Except PyErr String :=
  if cfg.ascii_only then
    .error (.notImplementedError "Punycode to Unicode conversion is not supported for ASCII-only mode.")
  else
    match validate_domain_re cfg domain with
    | .error e => .error e
    | .ok _ =>
      if !isAsciiL (pyvalStr domain).data then
        .error (.valueError "Error converting to Unicode: ascii encode failed")
      else
        match pyDecodeIdna (pyvalStr domain).data with
        | .ok out => .ok (String.mk out)
        | .error m => .error (.valueError ("Error converting to Unicode: " ++ m))

/-! ## Challenge generation -/

/-- string.ascii_letters ++ string.digits, the 62-character alphabet of
secrets.choice in generate_txt_code. -/
def alphanumAlphabet : List Char :=
  "abcdefghijklmnopqrstuvwxyzABCDEFGHIJKLMNOPQRSTUVWXYZ0123456789".data

/-- The joined secrets.choice draws: n characters selected from the
62-character alphanumeric alphabet by the injected capability. -/
def txtCode (rng : Nat → Fin 62) (n : Nat) : String :=
  String.mk ((List.range n).map fun i => alphanumAlphabet.get (Fin.cast (by decide) (rng i)))

/-- DomainValidator.generate_txt_code, with secrets.choice injected as a
capability rng giving the alphabet index drawn at each position.  The
Python parameters are length (an int; the isinstance int guard is
reflected in the Int typing) and an optional string prefix named pref
here. -/
def generate_txt_code (rng : Nat → Fin 62) (length : Int) (pref : String) :
    Except PyErr String :=
  if length ≤ 0 ∨ length > 255 then
    .error (.valueError "Length must be a positive integer and max of 255.")
  else
    let code := txtCode rng length.toNat
    if !pref.isEmpty then
      if length + pref.length > 255 then
        .error (.valueError "TXT record cannot exceed 255 characters, including prefix.")
      else .ok (pref ++ "=" ++ code)
    else .ok code

/-- DomainValidator.domain_ownership_confirmed: gate on is_domain_valid,
compose the query name with the optional txt_host, resolve TXT, and scan
records for txt_code == record.strip(quote).  NXDOMAIN and NoAnswer are
caught and re-raised as ValueError; any other resolver exception
propagates.  Also returns the queries issued. -/
def domain_ownership_confirmed (cfg : Config) (dns : Dns)
    (domain txt_code txt_host : String) : Except PyErr Bool × List DnsQuery :=
  let v := is_domain_valid cfg dns (.str domain)
  if !v.1 then (.error (.valueError "Invalid domain name."), v.2)
  else
    let name := if !txt_host.isEmpty then txt_host ++ "." ++ domain else domain
    match dns name "TXT" with
    | .answer rs => (.ok (rs.any fun r => txt_code == stripQuotes r), v.2 ++ [⟨name, "TXT"⟩])
    | .nxdomain => (.error (.valueError "Error resolving TXT records:"), v.2 ++ [⟨name, "TXT"⟩])
    | .noAnswer => (.error (.valueError "Error resolving TXT records:"), v.2 ++ [⟨name, "TXT"⟩])
    | .otherFailure m => (.error (.dnsException m), v.2 ++ [⟨name, "TXT"⟩])

/-! ## The language of the pattern, characterised

ReMatch is the language of the anchored group `(RUN . RUN)*` written as an
inductive relation; it is proved equivalent to the executable matcher, and
then characterised in terms of the dot-separated labels of the string. -/

/-- The language of `((?!-)C{1,63}(?<!-)\.(?!-)C{1,63}(?<!-))*` anchored
at both ends: zero or more repetitions of RUN "." RUN. -/
inductive ReMatch (cls : Char → Bool) : List Char → Prop where
  | nil : ReMatch cls []
  | block {r1 r2 rest : List Char} :
      goodRun cls r1 = true → goodRun cls r2 = true → ReMatch cls rest →
      ReMatch cls (r1 ++ '.' :: (r2 ++ rest))

theorem matchBlocksFuel_nil {cls : Char → Bool} (fuel : Nat) :
    matchBlocksFuel cls fuel [] = true := by
  cases fuel <;> rfl

theorem matchBlocksFuel_succ {cls : Char → Bool} (fuel : Nat) {l : List Char} (hne : l ≠ []) :
    matchBlocksFuel cls (fuel + 1) l =
      ((List.range 63).any fun i =>
        (List.range 63).any fun j =>
          match tryBlock cls (i + 1) (j + 1) l with
          | some rest => matchBlocksFuel cls fuel rest
          | none => false) := by
  rcases l with _ | ⟨x, xs⟩
  · exact absurd rfl hne
  · rfl

theorem tryBlock_eq_some {cls : Char → Bool} {n1 n2 : Nat} {l rest : List Char}
    (h : tryBlock cls n1 n2 l = some rest) :
    ∃ r1 r2, l = r1 ++ '.' :: (r2 ++ rest) ∧ goodRun cls r1 = true ∧ goodRun cls r2 = true := by
  unfold tryBlock at h
  by_cases hc1 : (decide ((l.take n1).length = n1) && goodRun cls (l.take n1)) = true
  · rw [if_pos hc1] at h
    rcases hd : l.drop n1 with _ | ⟨c, rest2⟩
    · rw [hd] at h; exact absurd h (by simp)
    · rw [hd] at h
      dsimp only at h
      by_cases hc2 :
          (c == '.' && decide ((rest2.take n2).length = n2) && goodRun cls (rest2.take n2)) = true
      · rw [if_pos hc2] at h
        simp only [Option.some.injEq] at h
        simp only [Bool.and_eq_true, beq_iff_eq, decide_eq_true_eq] at hc1 hc2
        refine ⟨l.take n1, rest2.take n2, ?_, hc1.2, hc2.2⟩
        have hl : l.take n1 ++ l.drop n1 = l := l.take_append_drop n1
        rw [hd, hc2.1.1] at hl
        rw [← h, rest2.take_append_drop n2]
        exact hl.symm
      · rw [if_neg hc2] at h; exact absurd h (by simp)
  · rw [if_neg hc1] at h; exact absurd h (by simp)

theorem matchBlocksFuel_sound {cls : Char → Bool} :
    ∀ fuel (l : List Char), matchBlocksFuel cls fuel l = true → ReMatch cls l := by
  intro fuel
  induction fuel with
  | zero =>
    intro l h
    cases l with
    | nil => exact .nil
    | cons x xs => exact absurd (show (false : Bool) = true from h) (by simp)
  | succ f ih =>
    intro l h
    cases l with
    | nil => exact .nil
    | cons x xs =>
      rw [matchBlocksFuel_succ f (by simp), List.any_eq_true] at h
      obtain ⟨i, _, hi⟩ := h
      rw [List.any_eq_true] at hi
      obtain ⟨j, _, hj⟩ := hi
      rcases ht : tryBlock cls (i + 1) (j + 1) (x :: xs) with _ | rest
      · rw [ht] at hj; exact absurd hj (by simp)
      · rw [ht] at hj
        obtain ⟨r1, r2, heq, h1, h2⟩ := tryBlock_eq_some ht
        rw [heq]
        exact .block h1 h2 (ih rest hj)

theorem tryBlock_append {cls : Char → Bool} {r1 r2 : List Char} (rest : List Char)
    (h1 : goodRun cls r1 = true) (h2 : goodRun cls r2 = true) :
    tryBlock cls r1.length r2.length (r1 ++ '.' :: (r2 ++ rest)) = some rest := by
  unfold tryBlock
  rw [List.take_left, List.drop_left]
  simp only [h1, List.take_left, List.drop_left, beq_self_eq_true, h2, decide_True,
    Bool.and_self, Bool.and_true, Bool.true_and, if_true]

theorem goodRun_length {cls : Char → Bool} {r : List Char} (h : goodRun cls r = true) :
    1 ≤ r.length ∧ r.length ≤ 63 := by
  simp only [goodRun, Bool.and_eq_true, decide_eq_true_eq] at h
  exact ⟨h.1.1.1.1, h.1.1.1.2⟩

theorem ReMatch.toFuel {cls : Char → Bool} {l : List Char} (h : ReMatch cls l) :
    ∀ fuel, l.length ≤ fuel → matchBlocksFuel cls fuel l = true := by
  induction h with
  | nil => intro fuel _; exact matchBlocksFuel_nil fuel
  | @block r1 r2 rest h1 h2 _ ih =>
    intro fuel hlen
    have hL1 := goodRun_length h1
    have hL2 := goodRun_length h2
    have hlen' : r1.length + r2.length + rest.length + 1 ≤ fuel := by
      simp only [List.length_append, List.length_cons] at hlen; omega
    rcases fuel with _ | f
    · omega
    rw [matchBlocksFuel_succ f (by simp), List.any_eq_true]
    refine ⟨r1.length - 1, List.mem_range.mpr (by omega), ?_⟩
    rw [List.any_eq_true]
    refine ⟨r2.length - 1, List.mem_range.mpr (by omega), ?_⟩
    have e1 : r1.length - 1 + 1 = r1.length := by omega
    have e2 : r2.length - 1 + 1 = r2.length := by omega
    rw [e1, e2, tryBlock_append rest h1 h2]
    exact ih f (by omega)

/-- The executable matcher decides the language ReMatch. -/
theorem matchBlocks_iff_ReMatch {cls : Char → Bool} {l : List Char} :
    matchBlocks cls l = true ↔ ReMatch cls l :=
  ⟨matchBlocksFuel_sound l.length l, fun h => h.toFuel l.length le_rfl⟩

/-! ### Label-level characterisation -/

/-- An interior dot-separated label of a matching string: the abutment of
two RUNs (so 2-126 characters, no hyphen at either end, and some
adjacent hyphen-free pair at distance at most 63 from each end). -/
def innerOk (cls : Char → Bool) (m : List Char) : Prop :=
  ∃ v u, m = v ++ u ∧ goodRun cls v = true ∧ goodRun cls u = true

/-- The conditions on all labels after the first: interior labels are
innerOk and the final label is a RUN. -/
def lastMidOk (cls : Char → Bool) : List (List Char) → Prop
  | [] => False
  | [b] => goodRun cls b = true
  | m :: b :: rest => innerOk cls m ∧ lastMidOk cls (b :: rest)

/-- The label-level conditions equivalent to a (nonempty) match: at least
two labels, the first and last are RUNs, interior ones are innerOk. -/
def labelsOk (cls : Char → Bool) : List (List Char) → Prop
  | [] => False
  | a :: rest => goodRun cls a = true ∧ lastMidOk cls rest

theorem splitOnDot_ne_nil : ∀ l : List Char, ∃ h t, splitOnDot l = h :: t := by
  intro l
  induction l with
  | nil => exact ⟨[], [], rfl⟩
  | cons c rest ih =>
    obtain ⟨h, t, heq⟩ := ih
    by_cases hc : c = '.'
    · exact ⟨[], splitOnDot rest, by simp [splitOnDot, hc]⟩
    · exact ⟨c :: h, t, by simp [splitOnDot, hc, heq]⟩

theorem splitOnDot_append {a : List Char} (hdf : ∀ c ∈ a, c ≠ '.') :
    ∀ {b hb tb}, splitOnDot b = hb :: tb → splitOnDot (a ++ b) = (a ++ hb) :: tb := by
  induction a with
  | nil => intro b hb tb heq; simpa using heq
  | cons c a' ih =>
    intro b hb tb heq
    have hc : c ≠ '.' := hdf c (by simp)
    have ih' := ih (fun x hx => hdf x (by simp [hx])) heq
    simp [splitOnDot, hc, ih']

theorem splitOnDot_dot (b : List Char) : splitOnDot ('.' :: b) = [] :: splitOnDot b := by
  simp [splitOnDot]

theorem splitOnDot_append_dot {a : List Char} (b : List Char) (hdf : ∀ c ∈ a, c ≠ '.') :
    splitOnDot (a ++ '.' :: b) = a :: splitOnDot b := by
  have := splitOnDot_append hdf (splitOnDot_dot b)
  simpa using this

theorem splitOnDot_dotfree {a : List Char} (hdf : ∀ c ∈ a, c ≠ '.') :
    splitOnDot a = [a] := by
  have h0 : splitOnDot ([] : List Char) = [] :: [] := rfl
  have := splitOnDot_append hdf h0
  simpa using this

theorem joinDots_splitOnDot : ∀ l : List Char, joinDots (splitOnDot l) = l := by
  intro l
  induction l with
  | nil => rfl
  | cons c rest ih =>
    obtain ⟨h, t, heq⟩ := splitOnDot_ne_nil rest
    by_cases hc : c = '.'
    · subst hc
      rw [splitOnDot_dot, heq]
      rw [heq] at ih
      simp [joinDots, ih]
    · rw [show splitOnDot (c :: rest) = (c :: h) :: t by simp [splitOnDot, hc, heq]]
      rw [heq] at ih
      cases t with
      | nil => simp only [joinDots] at ih ⊢; rw [ih]
      | cons x xs => simp only [joinDots] at ih ⊢; rw [List.cons_append, ih]

theorem goodRun_dotfree {cls : Char → Bool} (hdot : cls '.' = false) {r : List Char}
    (h : goodRun cls r = true) : ∀ c ∈ r, c ≠ '.' := by
  intro c hc hcd
  simp only [goodRun, Bool.and_eq_true, List.all_eq_true] at h
  have := h.1.1.2 c hc
  rw [hcd, hdot] at this
  exact absurd this (by simp)

theorem ReMatch_labelsOk {cls : Char → Bool} (hdot : cls '.' = false) {l : List Char}
    (h : ReMatch cls l) : l = [] ∨ labelsOk cls (splitOnDot l) := by
  induction h with
  | nil => exact Or.inl rfl
  | @block r1 r2 rest h1 h2 _ ih =>
    right
    have d1 := goodRun_dotfree hdot h1
    have d2 := goodRun_dotfree hdot h2
    rw [splitOnDot_append_dot _ d1]
    rcases ih with hrest | hl
    · subst hrest
      rw [List.append_nil, splitOnDot_dotfree d2]
      exact ⟨h1, h2⟩
    · obtain ⟨hb, tb, heq⟩ := splitOnDot_ne_nil rest
      rw [splitOnDot_append d2 heq]
      rw [heq] at hl
      obtain ⟨ghb, hmid⟩ := hl
      cases tb with
      | nil => exact absurd hmid (by simp [lastMidOk])
      | cons x xs => exact ⟨h1, ⟨r2, hb, rfl, h2, ghb⟩, hmid⟩

theorem lastMidOk_ReMatch {cls : Char → Bool} :
    ∀ (rest : List (List Char)) (a : List Char), goodRun cls a = true →
      lastMidOk cls rest → ReMatch cls (joinDots (a :: rest)) := by
  intro rest
  induction rest with
  | nil => intro a _ hm; exact absurd hm (by simp [lastMidOk])
  | cons m rest' ih =>
    intro a ha hm
    cases rest' with
    | nil =>
      have hb : goodRun cls m = true := hm
      have : ReMatch cls (a ++ '.' :: (m ++ [])) := .block ha hb .nil
      simpa [joinDots] using this
    | cons b rest'' =>
      obtain ⟨⟨v, u, hmv, gv, gu⟩, hrest⟩ := hm
      have hu : ReMatch cls (u ++ '.' :: joinDots (b :: rest'')) := by
        have := ih u gu hrest
        simpa [joinDots] using this
      have : ReMatch cls (a ++ '.' :: (v ++ (u ++ '.' :: joinDots (b :: rest'')))) :=
        .block ha gv hu
      simp only [joinDots]
      rw [hmv, List.append_assoc]
      exact this

theorem labelsOk_ReMatch {cls : Char → Bool} {ls : List (List Char)}
    (h : labelsOk cls ls) : ReMatch cls (joinDots ls) := by
  cases ls with
  | nil => exact absurd h (by simp [labelsOk])
  | cons a rest => exact lastMidOk_ReMatch rest a h.1 h.2

/-- The matcher on a nonempty string accepts exactly the strings whose
dot-separated labels satisfy labelsOk. -/
theorem matchBlocks_iff_labelsOk {cls : Char → Bool} (hdot : cls '.' = false)
    {l : List Char} (hne : l ≠ []) :
    matchBlocks cls l = true ↔ labelsOk cls (splitOnDot l) := by
  rw [matchBlocks_iff_ReMatch]
  constructor
  · intro h
    rcases ReMatch_labelsOk hdot h with h0 | h1
    · exact absurd h0 hne
    · exact h1
  · intro h
    have := labelsOk_ReMatch h
    rwa [joinDots_splitOnDot] at this

/-! ## Shared instances and helper lemmas for the claims -/

/-- DomainValidator(): ascii_only=True, domain_max_length=255. -/
def defaultConfig : Config := {}

/-- DomainValidator(ascii_only=False). -/
def unicodeConfig : Config := { ascii_only := false }

/-- A deterministic stand-in for secrets.choice that always draws index
0 (the letter a). -/
def rngZero : Nat → Fin 62 := fun _ => ⟨0, by decide⟩

/-- A resolver whose every lookup returns one record. -/
def dnsAllAnswer : Dns := fun _ _ => .answer ["ns1.example.com."]

/-- A resolver that answers NS lookups and returns two quoted TXT
records. -/
def dnsTok : Dns := fun _ rt =>
  if rt == "NS" then .answer ["ns1.example.com."] else .answer ["\"tok\"", "\"other\""]

/-- A resolver that answers NS lookups and has no TXT records. -/
def dnsNoTxt : Dns := fun _ rt =>
  if rt == "NS" then .answer ["ns1.example.com."] else .noAnswer

theorem isEmpty_false_of_ne {s : String} (h : s ≠ "") : s.isEmpty = false := by
  rw [← Bool.not_eq_true]
  exact fun hh => h ((String.isEmpty_iff s).mp hh)

theorem data_ne_nil_of_ne {s : String} (h : s ≠ "") : s.data ≠ [] := by
  intro hd
  apply h
  cases s
  simp_all

/-- The dot is never in the character class, in either mode. -/
theorem cls_dot (cfg : Config) : cfg.cls '.' = false := by
  unfold Config.cls Config.wordChar labelChar
  cases cfg.ascii_only <;> simp <;> decide

/-- Without a trailing newline, re_match is just the block matcher. -/
theorem re_match_no_newline {cls : Char → Bool} {s : String}
    (hnl : s.data.getLast? ≠ some '\n') : re_match cls s = matchBlocks cls s.data := by
  unfold re_match
  rcases hg : s.data.getLast? with _ | c
  · simp
  · have hc : (c == '\n') = false := by
      rw [beq_eq_false_iff_ne]
      intro hcn
      rw [hcn] at hg
      exact hnl hg
    simp [hc]

/-- validate_domain_re on a string succeeds exactly when the string is
nonempty and the pattern matches. -/
theorem validate_domain_re_str (cfg : Config) (s : String) :
    validate_domain_re cfg (.str s) = .ok () ↔ s ≠ "" ∧ re_match cfg.cls s = true := by
  by_cases hs : s = ""
  · subst hs
    have : validate_domain_re cfg (.str "") = .error (.valueError "Domain cannot be empty.") := rfl
    simp [this]
  · have hs' : s.isEmpty = false := isEmpty_false_of_ne hs
    unfold validate_domain_re PyVal.truthy
    dsimp only
    rw [hs']
    by_cases hm : re_match cfg.cls s = true <;> simp [hm, hs]

/-- validate_domain_length on a string succeeds exactly when the string
is nonempty and within the ceiling. -/
theorem validate_domain_length_str (cfg : Config) (s : String) :
    validate_domain_length cfg (.str s) = .ok () ↔
      s ≠ "" ∧ s.length ≤ cfg.domain_max_length := by
  by_cases hs : s = ""
  · subst hs
    have : validate_domain_length cfg (.str "") =
        .error (.valueError "Domain cannot be empty.") := rfl
    simp [this]
  · have hs' : s.isEmpty = false := isEmpty_false_of_ne hs
    unfold validate_domain_length PyVal.truthy
    dsimp only
    rw [hs']
    by_cases hm : s.length > cfg.domain_max_length <;> (simp [hm, hs]; try omega)

/-- A true is_domain_valid means the format and length checks passed. -/
theorem is_domain_valid_fst_true {cfg : Config} {dns : Dns} {v : PyVal}
    (h : (is_domain_valid cfg dns v).1 = true) :
    validate_domain_re cfg v = .ok () ∧ validate_domain_length cfg v = .ok () := by
  unfold is_domain_valid at h
  rcases hre : validate_domain_re cfg v with e | u
  · rw [hre] at h; simp at h
  · rw [hre] at h
    rcases hlen : validate_domain_length cfg v with e | u'
    · rw [hlen] at h; simp at h
    · cases u; cases u'; exact ⟨rfl, rfl⟩

/-- Every query issued during is_domain_valid comes after the format and
length checks passed. -/
theorem is_domain_valid_trace {cfg : Config} {dns : Dns} {v : PyVal} {q : DnsQuery}
    (h : q ∈ (is_domain_valid cfg dns v).2) :
    validate_domain_re cfg v = .ok () ∧ validate_domain_length cfg v = .ok () := by
  unfold is_domain_valid at h
  rcases hre : validate_domain_re cfg v with e | u
  · rw [hre] at h; simp at h
  · rw [hre] at h
    rcases hlen : validate_domain_length cfg v with e | u'
    · rw [hlen] at h; simp at h
    · cases u; cases u'; exact ⟨rfl, rfl⟩

/-- A format error short-circuits is_domain_valid to false with no DNS
queries. -/
theorem is_domain_valid_of_re_error {cfg : Config} {dns : Dns} {v : PyVal} {e : PyErr}
    (h : validate_domain_re cfg v = .error e) : is_domain_valid cfg dns v = (false, []) := by
  unfold is_domain_valid
  rw [h]

/-- validate_domain_re on an int input always raises ValueError. -/
theorem validate_domain_re_int (cfg : Config) (n : Int) :
    validate_domain_re cfg (.int n) =
      .error (.valueError
        (if n = 0 then "Domain cannot be empty." else "Domain must be a string.")) := by
  unfold validate_domain_re PyVal.truthy
  by_cases hn : n = 0 <;> simp [hn]

/-- validate_domain_length on an int input always raises ValueError. -/
theorem validate_domain_length_int (cfg : Config) (n : Int) :
    validate_domain_length cfg (.int n) =
      .error (.valueError
        (if n = 0 then "Domain cannot be empty." else "Domain must be a string.")) := by
  unfold validate_domain_length PyVal.truthy
  by_cases hn : n = 0 <;> simp [hn]

/-- A malformed domain argument in the sense of the specification: the
empty string, or not a string at all. -/
def malformedInput (v : PyVal) : Prop :=
  v = .str "" ∨ ∀ s, v ≠ .str s

/-! ## Claim C1 -/

/-- C1, counterexample: is_domain_valid on the empty string returns the
boolean false (issuing no DNS query) even though validate_domain_re
raises the malformed-input ValueError on the same input — the
malformed-input error is suppressed, not re-raised. -/
theorem c1_counterexample :
    is_domain_valid defaultConfig dnsAllAnswer (.str "") = (false, []) ∧
    validate_domain_re defaultConfig (.str "") =
      .error (.valueError "Domain cannot be empty.") :=
  ⟨rfl, rfl⟩

/-- C1, amended: for every configuration and every empty-string or
non-string input, validate_domain_re and validate_domain_length raise
ValueError; is_domain_valid, which catches ValueError, converts even
those malformed-input failures to false (with no DNS query), rather than
letting them propagate. -/
theorem c1_amended (cfg : Config) (dns : Dns) (v : PyVal) (h : malformedInput v) :
    (∃ m, validate_domain_re cfg v = .error (.valueError m)) ∧
    (∃ m, validate_domain_length cfg v = .error (.valueError m)) ∧
    is_domain_valid cfg dns v = (false, []) := by
  rcases v with s | n | _
  · rcases h with h | h
    · have hs : s = "" := by injection h
      subst hs
      exact ⟨⟨_, rfl⟩, ⟨_, rfl⟩, rfl⟩
    · exact absurd rfl (h s)
  · refine ⟨⟨_, validate_domain_re_int cfg n⟩, ⟨_, validate_domain_length_int cfg n⟩, ?_⟩
    exact is_domain_valid_of_re_error (validate_domain_re_int cfg n)
  · exact ⟨⟨_, rfl⟩, ⟨_, rfl⟩, rfl⟩

/-- C1 witness: the amended claim at the non-string input 123. -/
theorem c1_amended_witness :
    (∃ m, validate_domain_re defaultConfig (.int 123) = .error (.valueError m)) ∧
    (∃ m, validate_domain_length defaultConfig (.int 123) = .error (.valueError m)) ∧
    is_domain_valid defaultConfig dnsAllAnswer (.int 123) = (false, []) :=
  c1_amended defaultConfig dnsAllAnswer (.int 123) (Or.inr fun s hs => by cases hs)

/-! ## Claim C5 -/

/-- C5, counterexample: on an NXDOMAIN response validate_domain_dns does
not return false — it raises ValueError; and on a transport failure it
raises the same ValueError instead of propagating a distinct transport
error. -/
theorem c5_counterexample :
    validate_domain_dns (fun _ _ => .nxdomain) "a.com" =
      .error (.valueError "Domain name did not resolve with DNS: a.com.") ∧
    validate_domain_dns (fun _ _ => .otherFailure "SERVFAIL") "a.com" =
      .error (.valueError "Domain name did not resolve with DNS: a.com.") :=
  ⟨rfl, rfl⟩

/-- C5, amended: validate_domain_dns issues the NS lookup and succeeds
(returning None) exactly when the resolver returns a record set; every
failing outcome — no such domain, no answer, or any other transport
failure — is converted to the same raised ValueError (never a false
return, never a distinct propagated transport error); the conversion of
that ValueError into a false result happens in is_domain_valid. -/
theorem c5_amended (dns : Dns) (domain : String) :
    (validate_domain_dns dns domain = .ok () ↔ ∃ rs, dns domain "NS" = .answer rs) ∧
    (validate_domain_dns dns domain ≠ .ok () →
      validate_domain_dns dns domain =
        .error (.valueError ("Domain name did not resolve with DNS: " ++ domain ++ "."))) := by
  unfold validate_domain_dns
  rcases h : dns domain "NS" with rs | _ | _ | m <;> simp [h]

/-- C5 witness: the amended claim at a resolver that returns one NS
record. -/
theorem c5_amended_witness :
    validate_domain_dns dnsAllAnswer "a.com" = .ok () :=
  (c5_amended dnsAllAnswer "a.com").1.mpr ⟨["ns1.example.com."], rfl⟩

/-! ## Claim C8 -/

/-- C8: with ascii_only = true, both conversion operations fail with
NotImplementedError for every input whatsoever — the mode check runs
before any validation of the argument. -/
theorem c8_mode_gate (cfg : Config) (v : PyVal) (h : cfg.ascii_only = true) :
    unicode_to_punycode cfg v =
      .error (.notImplementedError "Punycode conversion is not supported for ASCII-only mode.") ∧
    punycode_to_unicode cfg v =
      .error (.notImplementedError
        "Punycode to Unicode conversion is not supported for ASCII-only mode.") := by
  unfold unicode_to_punycode punycode_to_unicode
  rw [h]
  simp

/-- C8 witness: the mode gate on the default (ASCII-only) instance at the
malformed input 123. -/
theorem c8_mode_gate_witness :
    unicode_to_punycode defaultConfig (.int 123) =
      .error (.notImplementedError "Punycode conversion is not supported for ASCII-only mode.") ∧
    punycode_to_unicode defaultConfig (.int 123) =
      .error (.notImplementedError
        "Punycode to Unicode conversion is not supported for ASCII-only mode.") :=
  c8_mode_gate defaultConfig (.int 123) rfl

/-! ## Claim C2 -/

/-- C2: for a domain that passes is_domain_valid, ownership verification
queries TXT at the (possibly txt_host-composed) name and returns True
exactly when some returned record, with surrounding quote characters
stripped, equals the expected code byte for byte; False exactly when
records exist but none matches; and when the lookup reports no such
domain or no answer, it raises ValueError instead of silently returning
False. -/
theorem c2_ownership (cfg : Config) (dns : Dns) (domain txt_code txt_host : String)
    (hvalid : (is_domain_valid cfg dns (.str domain)).1 = true)
    (qname : String)
    (hq : qname = if !txt_host.isEmpty then txt_host ++ "." ++ domain else domain) :
    (∀ rs, dns qname "TXT" = .answer rs →
      (((domain_ownership_confirmed cfg dns domain txt_code txt_host).1 = .ok true ↔
          ∃ r ∈ rs, txt_code = stripQuotes r) ∧
        ((domain_ownership_confirmed cfg dns domain txt_code txt_host).1 = .ok false ↔
          ¬ ∃ r ∈ rs, txt_code = stripQuotes r))) ∧
    (dns qname "TXT" = .nxdomain ∨ dns qname "TXT" = .noAnswer →
      (domain_ownership_confirmed cfg dns domain txt_code txt_host).1 =
        .error (.valueError "Error resolving TXT records:")) := by
  simp only [domain_ownership_confirmed, hvalid, Bool.not_true, Bool.false_eq_true, if_false]
  subst hq
  constructor
  · intro rs hrs
    rw [hrs]
    constructor
    · simp only [Except.ok.injEq, List.any_eq_true, beq_iff_eq]
    · simp only [Except.ok.injEq, Bool.eq_false_iff, ne_eq, List.any_eq_true, beq_iff_eq]
  · rintro (hrs | hrs) <;> rw [hrs]

/-- C2 witness: with a resolver whose TXT records are a quoted match and
a quoted non-match, verification of a.com for the code tok succeeds. -/
theorem c2_ownership_witness :
    (domain_ownership_confirmed defaultConfig dnsTok "a.com" "tok" "").1 = .ok true :=
  ((c2_ownership defaultConfig dnsTok "a.com" "tok" "" rfl "a.com" rfl).1
    ["\"tok\"", "\"other\""] rfl).1.mpr ⟨"\"tok\"", by simp, by rfl⟩

/-! ## Claim C6 -/

/-- C6: neither is_domain_valid nor domain_ownership_confirmed ever
passes a query to the DNS capability unless the format and length checks
on the domain being validated have passed: every issued query implies
both checks succeeded on that domain. -/
theorem c6_gating :
    (∀ (cfg : Config) (dns : Dns) (v : PyVal) (q : DnsQuery),
        q ∈ (is_domain_valid cfg dns v).2 →
        validate_domain_re cfg v = .ok () ∧ validate_domain_length cfg v = .ok ()) ∧
    (∀ (cfg : Config) (dns : Dns) (domain txt_code txt_host : String) (q : DnsQuery),
        q ∈ (domain_ownership_confirmed cfg dns domain txt_code txt_host).2 →
        validate_domain_re cfg (.str domain) = .ok () ∧
        validate_domain_length cfg (.str domain) = .ok ()) := by
  constructor
  · intro cfg dns v q hq
    exact is_domain_valid_trace hq
  · intro cfg dns domain txt_code txt_host q hq
    by_cases hv : (is_domain_valid cfg dns (.str domain)).1 = true
    · exact is_domain_valid_fst_true hv
    · have hv' : (is_domain_valid cfg dns (.str domain)).1 = false := by
        simpa [Bool.not_eq_true] using hv
      simp only [domain_ownership_confirmed, hv', Bool.not_false, if_true] at hq
      exact is_domain_valid_trace hq

/-- C6 witness: the gating statement at a concrete query issued while
verifying a.com. -/
theorem c6_gating_witness :
    validate_domain_re defaultConfig (.str "a.com") = .ok () ∧
    validate_domain_length defaultConfig (.str "a.com") = .ok () :=
  c6_gating.2 defaultConfig dnsTok "a.com" "tok" "sub" ⟨"sub.a.com", "TXT"⟩ (by
    rw [show (domain_ownership_confirmed defaultConfig dnsTok "a.com" "tok" "sub").2 =
      [⟨"a.com", "NS"⟩, ⟨"sub.a.com", "TXT"⟩] from rfl]
    simp)

/-! ## Claim C10 -/

/-- C10: with a non-empty txt_host, and a domain that passes
is_domain_valid, ownership verification queries TXT for exactly the
composed name txt_host ++ "." ++ domain — for every txt_host string
whatsoever, with no format, length, or DNS validation applied to the
host or to the composed name. -/
theorem c10_composition (cfg : Config) (dns : Dns) (domain txt_code txt_host : String)
    (hhost : txt_host ≠ "") (hvalid : (is_domain_valid cfg dns (.str domain)).1 = true) :
    (domain_ownership_confirmed cfg dns domain txt_code txt_host).2 =
      (is_domain_valid cfg dns (.str domain)).2 ++ [⟨txt_host ++ "." ++ domain, "TXT"⟩] := by
  simp only [domain_ownership_confirmed, hvalid, isEmpty_false_of_ne hhost, Bool.not_true,
    Bool.not_false, Bool.false_eq_true, if_false, if_true]
  rcases h : dns (txt_host ++ "." ++ domain) "TXT" with rs | _ | _ | m <;> simp [h]

/-- C10 witness: the composed query for a txt_host that itself fails the
grammar and pushes the composed name structure past any validation —
it is still passed verbatim. -/
theorem c10_composition_witness :
    (domain_ownership_confirmed defaultConfig dnsNoTxt "a.com" "tok" "-bad..host-").2 =
      (is_domain_valid defaultConfig dnsNoTxt (.str "a.com")).2 ++
        [⟨"-bad..host-.a.com", "TXT"⟩] :=
  c10_composition defaultConfig dnsNoTxt "a.com" "tok" "-bad..host-" (by decide) rfl

/-! ## Claim C3 -/

/-- The domain grammar exactly as the claim words it (stated from the
specification for comparison with the code): one or more dot-separated
labels, each 1-63 characters of the class, with no label starting or
ending with a hyphen. -/
def specGrammar (cls : Char → Bool) (s : String) : Bool :=
  !s.isEmpty && (splitOnDot s.data).all (goodRun cls)

/-- C3, counterexample: the single-label name com satisfies the claimed
grammar (one label, three letters), but validate_domain_re rejects it —
the compiled pattern accepts no dot-free name. -/
theorem c3_counterexample :
    specGrammar defaultConfig.cls "com" = true ∧
    validate_domain_re defaultConfig (.str "com") =
      .error (.valueError "Invalid domain name: com.") :=
  ⟨by decide, rfl⟩

/-- C3, amended: for inputs without a trailing newline (which the
pattern's $ would also admit), validate_domain_re accepts a string
exactly when it is nonempty and its dot-separated labels satisfy: at
least two labels; the first and last label are 1-63 class characters
with no hyphen at either end; and every interior label is the abutment
of two such runs — hence 2-126 characters, no hyphen at either end, and
some hyphen-free adjacent pair at distance at most 63 from each end.
In particular single-label names are rejected, interior labels may
exceed 63 characters, and an interior label like a-b with no hyphen-free
abutment point is rejected. -/
theorem c3_amended (cfg : Config) (s : String) (hnl : s.data.getLast? ≠ some '\n') :
    validate_domain_re cfg (.str s) = .ok () ↔
      s ≠ "" ∧ labelsOk cfg.cls (splitOnDot s.data) := by
  rw [validate_domain_re_str, re_match_no_newline hnl]
  constructor
  · rintro ⟨hne, hm⟩
    exact ⟨hne, (matchBlocks_iff_labelsOk (cls_dot cfg) (data_ne_nil_of_ne hne)).mp hm⟩
  · rintro ⟨hne, hl⟩
    exact ⟨hne, (matchBlocks_iff_labelsOk (cls_dot cfg) (data_ne_nil_of_ne hne)).mpr hl⟩

/-- C3 witness: the amended characterisation applied at a.com. -/
theorem c3_amended_witness :
    validate_domain_re defaultConfig (.str "a.com") = .ok () :=
  (c3_amended defaultConfig "a.com" (by decide)).mpr
    ⟨by decide, by
      show labelsOk defaultConfig.cls [['a'], ['c', 'o', 'm']]
      refine ⟨by decide, ?_⟩
      show goodRun defaultConfig.cls ['c', 'o', 'm'] = true
      decide⟩

/-! ## Claim C4 -/

/-- C4, counterexample: ab--x.com — whose first label is ab--x, with a
hyphen at (0-indexed) positions 2 and 3 and no xn-- prefix — is accepted
by the ASCII-mode validator; the pattern contains no ACE-prefix rule. -/
theorem c4_counterexample :
    validate_domain_re defaultConfig (.str "ab--x.com") = .ok () ∧
    splitOnDot "ab--x.com".data = [['a', 'b', '-', '-', 'x'], ['c', 'o', 'm']] :=
  ⟨rfl, rfl⟩

/-- C4, amended: the ASCII-mode grammar places no restriction on hyphens
at positions 2-3 and gives no special role to the xn-- prefix: any two
1-63 character class runs without leading or trailing hyphen joined by a
dot are accepted, whatever their interior hyphens. -/
theorem c4_amended (r1 r2 : List Char)
    (h1 : goodRun defaultConfig.cls r1 = true) (h2 : goodRun defaultConfig.cls r2 = true) :
    matchBlocks defaultConfig.cls (r1 ++ '.' :: r2) = true := by
  have h : ReMatch defaultConfig.cls (r1 ++ '.' :: (r2 ++ [])) := .block h1 h2 .nil
  rw [List.append_nil] at h
  exact matchBlocks_iff_ReMatch.mpr h

/-- C4 witness: the amended statement at the runs ab--x and com. -/
theorem c4_amended_witness :
    matchBlocks defaultConfig.cls (['a', 'b', '-', '-', 'x'] ++ '.' :: ['c', 'o', 'm']) = true :=
  c4_amended ['a', 'b', '-', '-', 'x'] ['c', 'o', 'm'] (by decide) (by decide)

/-! ## Claim C7 -/

theorem txtCode_length (rng : Nat → Fin 62) (n : Nat) : (txtCode rng n).length = n := by
  show ((List.range n).map _).length = n
  simp

theorem txtCode_mem (rng : Nat → Fin 62) (n : Nat) :
    ∀ c ∈ (txtCode rng n).data, c ∈ alphanumAlphabet := by
  intro c hc
  rw [show (txtCode rng n).data = (List.range n).map
    (fun i => alphanumAlphabet.get (Fin.cast (by decide) (rng i))) from rfl,
    List.mem_map] at hc
  obtain ⟨i, _, hi⟩ := hc
  rw [← hi]
  exact List.get_mem _ _ _

/-- C7, counterexample: with length 244 and prefix test-domain the total
length + len(prefix) + len(separator) is 256 > 255, so the claim demands
InvalidArgument — but generate_txt_code succeeds (the code checks only
length + len(prefix) > 255, without the separator). -/
theorem c7_counterexample :
    (generate_txt_code rngZero 244 "test-domain").isOk = true ∧
    (244 : Int) + ("test-domain".length : Int) + ("=".length : Int) > 255 :=
  ⟨rfl, by decide⟩

/-- C7, amended: generate_txt_code fails with ValueError exactly when
length ≤ 0, length > 255, or the prefix is non-empty and
length + len(prefix) > 255 — the one-character separator is not counted,
so a prefixed result may reach 256 characters; otherwise it returns
prefix ++ sep ++ token (bare token without prefix) where the token is
exactly length characters drawn from the alphanumeric alphabet. -/
theorem c7_amended (rng : Nat → Fin 62) (length : Int) (pref : String) :
    ((length ≤ 0 ∨ length > 255 ∨ (pref ≠ "" ∧ length + pref.length > 255)) ↔
      ∃ m, generate_txt_code rng length pref = .error (.valueError m)) ∧
    (∀ s, generate_txt_code rng length pref = .ok s →
      ∃ token : String, token.length = length.toNat ∧
        (∀ c ∈ token.data, c ∈ alphanumAlphabet) ∧
        s = if pref = "" then token else pref ++ "=" ++ token) := by
  simp only [generate_txt_code]
  by_cases h1 : length ≤ 0 ∨ length > 255
  · rw [if_pos h1]
    refine ⟨⟨fun _ => ⟨_, rfl⟩, fun _ => ?_⟩, fun s hs => absurd hs (by simp)⟩
    rcases h1 with h | h
    · exact Or.inl h
    · exact Or.inr (Or.inl h)
  · rw [if_neg h1]
    by_cases hp : pref = ""
    · subst hp
      simp only [show ("" : String).isEmpty = true from rfl, Bool.not_true,
        Bool.false_eq_true, if_false]
      constructor
      · constructor
        · intro hcond
          exfalso
          rcases hcond with h | h | ⟨hne, _⟩
          · exact h1 (Or.inl h)
          · exact h1 (Or.inr h)
          · exact hne rfl
        · rintro ⟨m, hm⟩
          exact absurd hm (by simp)
      · intro s hs
        exact ⟨txtCode rng length.toNat, txtCode_length rng _, txtCode_mem rng _,
          by simp only [if_true]; exact (Except.ok.inj hs).symm⟩
    · rw [isEmpty_false_of_ne hp]
      simp only [Bool.not_false, if_true]
      by_cases h2 : length + (pref.length : Int) > 255
      · rw [if_pos h2]
        exact ⟨⟨fun _ => ⟨_, rfl⟩, fun _ => Or.inr (Or.inr ⟨hp, h2⟩)⟩,
          fun s hs => absurd hs (by simp)⟩
      · rw [if_neg h2]
        constructor
        · constructor
          · intro hcond
            exfalso
            rcases hcond with h | h | ⟨_, h⟩
            · exact h1 (Or.inl h)
            · exact h1 (Or.inr h)
            · exact h2 h
          · rintro ⟨m, hm⟩
            exact absurd hm (by simp)
        · intro s hs
          exact ⟨txtCode rng length.toNat, txtCode_length rng _, txtCode_mem rng _,
            by rw [if_neg hp]; exact (Except.ok.inj hs).symm⟩

/-- C7 witness: the amended claim at length 26 with no prefix, for the
all-a draw. -/
theorem c7_amended_witness :
    ∃ token : String, token.length = (26 : Int).toNat ∧
      (∀ c ∈ token.data, c ∈ alphanumAlphabet) ∧
      "aaaaaaaaaaaaaaaaaaaaaaaaaa" = if ("" : String) = "" then token else "" ++ "=" ++ token :=
  (c7_amended rngZero 26 "").2 "aaaaaaaaaaaaaaaaaaaaaaaaaa" rfl

/-! ## Claim C9 -/

/-- A Unicode-grammar-accepted domain whose middle label has 64
characters: the regex admits it (split as two abutting runs of 63 and 1),
but the idna codec's per-label 63-character ceiling rejects it. -/
def longMidDomain : String :=
  String.mk ('a' :: '.' :: (List.replicate 64 'b' ++ ['.', 'c']))

set_option maxHeartbeats 1000000 in
/-- C9, counterexample: longMidDomain is accepted by the Unicode-mode
grammar, yet toPunycode raises ValueError on it, so the round-trip law
toUnicode(toPunycode(d)) = d fails for this grammar-accepted d. -/
theorem c9_counterexample :
    validate_domain_re unicodeConfig (.str longMidDomain) = .ok () ∧
    unicode_to_punycode unicodeConfig (.str longMidDomain) =
      .error (.valueError "Error converting to Punycode: label empty or too long") :=
  ⟨rfl, rfl⟩

/-- C9, amended: the concrete anchors hold — toPunycode maps 例子.测试 to
xn--fsqu00a.xn--0zwm56d and toUnicode recovers 例子.测试 — and the
round-trip law holds for every grammar-accepted domain on which the idna
codec itself round-trips (encode succeeds, the encoded form is
grammar-accepted ASCII, and decode inverts the encoding); it fails in
general only because grammar-accepted domains exist on which the encode
step errors (see the counterexample). -/
theorem c9_amended :
    unicode_to_punycode unicodeConfig (.str "例子.测试") = .ok "xn--fsqu00a.xn--0zwm56d" ∧
    punycode_to_unicode unicodeConfig (.str "xn--fsqu00a.xn--0zwm56d") = .ok "例子.测试" ∧
    ∀ d p : String,
      validate_domain_re unicodeConfig (.str d) = .ok () →
      pyEncodeIdna d.data = .ok p.data →
      validate_domain_re unicodeConfig (.str p) = .ok () →
      isAsciiL p.data = true →
      pyDecodeIdna p.data = .ok d.data →
      unicode_to_punycode unicodeConfig (.str d) = .ok p ∧
      punycode_to_unicode unicodeConfig (.str p) = .ok d := by
  refine ⟨rfl, rfl, ?_⟩
  intro d p hd henc hp hasc hdec
  constructor
  · simp only [unicode_to_punycode]
    rw [show unicodeConfig.ascii_only = false from rfl]
    simp only [Bool.false_eq_true, if_false]
    rw [hd]
    dsimp only
    rw [show pyvalStr (.str d) = d from rfl, henc]
  · simp only [punycode_to_unicode]
    rw [show unicodeConfig.ascii_only = false from rfl]
    simp only [Bool.false_eq_true, if_false]
    rw [hp]
    dsimp only
    rw [show pyvalStr (.str p) = p from rfl, hasc]
    simp only [Bool.not_true, Bool.false_eq_true, if_false]
    rw [hdec]

/-- C9 witness: the conditional round-trip law applied at the concrete
anchor pair. -/
theorem c9_amended_witness :
    unicode_to_punycode unicodeConfig (.str "例子.测试") = .ok "xn--fsqu00a.xn--0zwm56d" ∧
    punycode_to_unicode unicodeConfig (.str "xn--fsqu00a.xn--0zwm56d") = .ok "例子.测试" :=
  c9_amended.2.2 "例子.测试" "xn--fsqu00a.xn--0zwm56d" rfl rfl rfl rfl rfl

end DomainValidator
